import Mathlib

/-!
Verification of the rcon-rs repository: a Lean embedding of the Source RCON
packet codec (`src/packet.rs`), the client connection logic (`src/client.rs`)
and the server session state machine (`src/server.rs`), with theorems settling
the specification's claims about them.

Bytes are modelled as `Nat` values (meaningful when `< 256`); a Rust `String`
body is modelled by the list of its UTF-8 bytes; Rust panics are modelled by an
explicit `panic` outcome constructor.
-/

namespace Rcon

/-- `PacketType` from src/packet.rs. -/
inductive PacketType where
  | Auth
  | AuthResponse
  | ExecCommand
  | ResponseValue
deriving DecidableEq, Repr

/-- `CodecType` from src/packet.rs: the role of the codec instance. -/
inductive CodecType where
  | Client
  | Server
deriving DecidableEq, Repr

/-- `PacketType::from_i32` from src/packet.rs: numeric type code to packet
type, with the code `2` disambiguated by the codec role. -/
def PacketType.from_i32 (i : Int) (codec : CodecType) : Option PacketType :=
  if i = 0 then some .ResponseValue
  else if i = 2 then
    if codec = .Client then some .AuthResponse else some .ExecCommand
  else if i = 3 then some .Auth
  else none

/-- `PacketType::bytes` from src/packet.rs: packet type to numeric code. -/
def PacketType.bytes : PacketType → Int
  | .ResponseValue => 0
  | .AuthResponse => 2
  | .ExecCommand => 2
  | .Auth => 3

/-- `PacketError` from src/packet.rs. `IoErr` models the `Io(io::Error)`
constructor (its payload is irrelevant to the pure decoding logic). -/
inductive PacketError where
  | InvalidLength
  | UndefinedType
  | IoErr
deriving DecidableEq, Repr

/-- `Packet` from src/packet.rs. The `body: String` field is modelled as the
list of its UTF-8 bytes. -/
structure Packet where
  ptype : PacketType
  id : Int
  body : List Nat
deriving DecidableEq, Repr

/-! ## Byte-level helpers

`bytes::Buf::get_i32_le` / `bytes::BufMut::put_i32_le` on lists of bytes, and
the `as usize` cast applied to the decoded length prefix. -/

/-- Reassemble a signed 32-bit little-endian value from four bytes
(`get_i32_le`). -/
def toI32le (b0 b1 b2 b3 : Nat) : Int :=
  let n : Nat := b0 + 256 * b1 + 65536 * b2 + 16777216 * b3
  if n < 2147483648 then (n : Int) else (n : Int) - 4294967296

/-- `get_i32_le` on the first four bytes of a buffer. -/
def getI32le (l : List Nat) : Int :=
  toI32le (l.getD 0 0) (l.getD 1 0) (l.getD 2 0) (l.getD 3 0)

/-- `put_i32_le`: the four little-endian bytes of a signed 32-bit value. -/
def i32leBytes (i : Int) : List Nat :=
  let n : Nat := (i % 4294967296).toNat
  [n % 256, n / 256 % 256, n / 65536 % 256, n / 16777216 % 256]

/-- The Rust `as usize` cast applied to an `i32` value (64-bit target). -/
def asUsize (i : Int) : Nat := (i % 18446744073709551616).toNat

/-! ## UTF-8 validation

`Read::read_to_string` (used by `Packet::from_bytes`) fails with an
`InvalidData` error when the bytes read are not valid UTF-8; this models that
validity check. `utf8Go` consumes one encoded scalar value per step; its fuel
argument starts at the length of the list, which one byte of progress per step
keeps sufficient. -/

/-- A UTF-8 continuation byte: `0x80 ≤ b ≤ 0xBF`. -/
def utf8Cont (b : Nat) : Bool := 128 ≤ b && b < 192

/-- Fuelled UTF-8 validity check; one encoded scalar value per step. -/
def utf8Go : Nat → List Nat → Bool
  | _, [] => true
  | 0, _ :: _ => false
  | fuel + 1, b :: rest =>
    if b < 128 then utf8Go fuel rest
    else if b < 194 then false
    else if b < 224 then
      match rest with
      | b1 :: r => utf8Cont b1 && utf8Go fuel r
      | [] => false
    else if b = 224 then
      match rest with
      | b1 :: b2 :: r => (160 ≤ b1 && b1 < 192) && utf8Cont b2 && utf8Go fuel r
      | _ => false
    else if b < 237 then
      match rest with
      | b1 :: b2 :: r => utf8Cont b1 && utf8Cont b2 && utf8Go fuel r
      | _ => false
    else if b = 237 then
      match rest with
      | b1 :: b2 :: r => (128 ≤ b1 && b1 < 160) && utf8Cont b2 && utf8Go fuel r
      | _ => false
    else if b < 240 then
      match rest with
      | b1 :: b2 :: r => utf8Cont b1 && utf8Cont b2 && utf8Go fuel r
      | _ => false
    else if b = 240 then
      match rest with
      | b1 :: b2 :: b3 :: r =>
        (144 ≤ b1 && b1 < 192) && utf8Cont b2 && utf8Cont b3 && utf8Go fuel r
      | _ => false
    else if b < 244 then
      match rest with
      | b1 :: b2 :: b3 :: r =>
        utf8Cont b1 && utf8Cont b2 && utf8Cont b3 && utf8Go fuel r
      | _ => false
    else if b = 244 then
      match rest with
      | b1 :: b2 :: b3 :: r =>
        (128 ≤ b1 && b1 < 144) && utf8Cont b2 && utf8Cont b3 && utf8Go fuel r
      | _ => false
    else false

/-- Whether a byte list is valid UTF-8 (the check `read_to_string` performs). -/
def utf8Valid (l : List Nat) : Bool := utf8Go l.length l

/-! ## `Packet::from_bytes` and `Packet::write_bytes` -/

/-- Outcome of `Packet::from_bytes`: a packet, a `PacketError`, or a panic
(the source calls `.expect` on `read_to_string`, which panics when the body
bytes are not valid UTF-8). -/
inductive FromBytesResult where
  | ok (p : Packet)
  | err (e : PacketError)
  | panic
deriving DecidableEq, Repr

/-- `Packet::from_bytes` from src/packet.rs, over the payload bytes (the
4-byte length prefix is already removed by the codec). -/
def Packet.from_bytes (b : List Nat) (codec : CodecType) : FromBytesResult :=
  if ¬(10 ≤ b.length ∧ b.length ≤ 4096) then .err .InvalidLength
  else
    let msg_id := getI32le b
    match PacketType.from_i32 (getI32le (b.drop 4)) codec with
    | none => .err .UndefinedType
    | some ptype =>
      -- rem = b.remaining() - 2 after the 8 header bytes were consumed
      let bodyBytes := (b.drop 8).take (b.length - 8 - 2)
      if utf8Valid bodyBytes then .ok ⟨ptype, msg_id, bodyBytes⟩
      else .panic

/-- `Packet::encoded_len` from src/packet.rs. -/
def Packet.encoded_len (p : Packet) : Nat := p.body.length + 10

/-- `Packet::write_bytes` from src/packet.rs: the payload bytes appended to
the output buffer (id, type code, body, two zero terminator bytes). -/
def Packet.write_bytes (p : Packet) : List Nat :=
  i32leBytes p.id ++ i32leBytes p.ptype.bytes ++ p.body ++ [0, 0]

/-- C4: decoding type code 2 yields `AuthResponse` under the `Client` role and
`ExecCommand` under the `Server` role; `from_i32` returns `none` exactly when
the code is not one of 0, 2, 3; and `bytes` maps `Auth` to 3, `ExecCommand`
to 2, `AuthResponse` to 2 and `ResponseValue` to 0. -/
theorem from_i32_disambiguation_and_totality (i : Int) (role : CodecType) :
    PacketType.from_i32 2 .Client = some .AuthResponse ∧
    PacketType.from_i32 2 .Server = some .ExecCommand ∧
    (PacketType.from_i32 i role = none ↔ ¬(i = 0 ∨ i = 2 ∨ i = 3)) ∧
    PacketType.bytes .Auth = 3 ∧ PacketType.bytes .ExecCommand = 2 ∧
    PacketType.bytes .AuthResponse = 2 ∧ PacketType.bytes .ResponseValue = 0 := by
  refine ⟨rfl, rfl, ?_, rfl, rfl, rfl, rfl⟩
  unfold PacketType.from_i32
  split_ifs with h0 h2 hc h3 <;> simp_all

/-! ## Helper lemmas about the byte-level encoding -/

theorem getI32le_i32leBytes_append (i : Int) (rest : List Nat)
    (h1 : -2147483648 ≤ i) (h2 : i < 2147483648) :
    getI32le (i32leBytes i ++ rest) = i := by
  simp only [getI32le, i32leBytes, toI32le, List.cons_append, List.getD, List.get?,
    List.nil_append, Option.getD_some]
  omega

theorem i32leBytes_append_drop4 (i : Int) (rest : List Nat) :
    (i32leBytes i ++ rest).drop 4 = rest := by
  simp [i32leBytes]

theorem write_bytes_length (p : Packet) :
    p.write_bytes.length = p.body.length + 10 := by
  simp [Packet.write_bytes, i32leBytes]

theorem from_i32_bytes (p : PacketType) (role : CodecType)
    (hr1 : p = .AuthResponse → role = .Client)
    (hr2 : p = .ExecCommand → role = .Server) :
    PacketType.from_i32 p.bytes role = some p := by
  cases p with
  | Auth => simp [PacketType.from_i32, PacketType.bytes]
  | ResponseValue => simp [PacketType.from_i32, PacketType.bytes]
  | AuthResponse => rw [hr1 rfl]; simp [PacketType.from_i32, PacketType.bytes]
  | ExecCommand => rw [hr2 rfl]; simp [PacketType.from_i32, PacketType.bytes]

/-- C1: for every packet whose body is at most 4086 UTF-8 bytes, decoding the
payload written by `Packet::write_bytes` under a role that disambiguates the
packet's type code (`Client` for `AuthResponse`, `Server` for `ExecCommand`,
either role otherwise) returns exactly the original packet: same id, same
type, same body. -/
theorem encode_decode_round_trip (p : Packet) (role : CodecType)
    (hvalid : utf8Valid p.body = true)
    (hblen : p.body.length ≤ 4086)
    (hid1 : -2147483648 ≤ p.id) (hid2 : p.id < 2147483648)
    (hr1 : p.ptype = .AuthResponse → role = .Client)
    (hr2 : p.ptype = .ExecCommand → role = .Server) :
    Packet.from_bytes p.write_bytes role = .ok p := by
  have hw : p.write_bytes =
      i32leBytes p.id ++ (i32leBytes p.ptype.bytes ++ (p.body ++ [0, 0])) := by
    simp [Packet.write_bytes]
  have hlen := write_bytes_length p
  have hdrop4 : p.write_bytes.drop 4 = i32leBytes p.ptype.bytes ++ (p.body ++ [0, 0]) := by
    rw [hw, i32leBytes_append_drop4]
  have hdrop8 : p.write_bytes.drop 8 = p.body ++ [0, 0] := by
    have h44 : p.write_bytes.drop 8 = (p.write_bytes.drop 4).drop 4 := by
      rw [List.drop_drop]
    rw [h44, hdrop4, i32leBytes_append_drop4]
  have hbytes_bound : -2147483648 ≤ p.ptype.bytes ∧ p.ptype.bytes < 2147483648 := by
    cases p.ptype <;> simp [PacketType.bytes]
  unfold Packet.from_bytes
  rw [if_neg (by omega)]
  rw [hdrop4, getI32le_i32leBytes_append _ _ hbytes_bound.1 hbytes_bound.2]
  rw [from_i32_bytes p.ptype role hr1 hr2]
  simp only [hdrop8, hlen]
  have htake : (p.body ++ [0, 0]).take (p.body.length + 10 - 8 - 2) = p.body := by
    have h10 : p.body.length + 10 - 8 - 2 = p.body.length := by omega
    rw [h10, List.take_left]
  rw [htake, hvalid]
  rw [hw, getI32le_i32leBytes_append _ _ hid1 hid2]
  simp

/-- Witness for C1: the round trip evaluated on a concrete `Auth` packet with
body "password" under the `Server` role. -/
theorem encode_decode_round_trip_witness :
    Packet.from_bytes
      (Packet.write_bytes ⟨.Auth, 10, [112, 97, 115, 115, 119, 111, 114, 100]⟩) .Server =
      .ok ⟨.Auth, 10, [112, 97, 115, 115, 119, 111, 114, 100]⟩ :=
  encode_decode_round_trip ⟨.Auth, 10, [112, 97, 115, 115, 119, 111, 114, 100]⟩ .Server
    (by decide) (by decide) (by decide) (by decide) (by decide) (by decide)

/-- C8 counterexample: `Packet::from_bytes` is not total over arbitrary byte
payloads — on an 11-byte `ResponseValue` payload whose single body byte is
`0xFF` (not valid UTF-8) it panics (the `.expect` on `read_to_string`) instead
of returning a frame. -/
theorem from_bytes_panics_on_invalid_utf8 :
    Packet.from_bytes [0, 0, 0, 0, 0, 0, 0, 0, 255, 0, 0] .Client = .panic := by decide

/-- C8 (amended): `Packet::from_bytes` returns `InvalidLength` exactly when
the payload length is outside [10, 4096]; otherwise `UndefinedType` when the
type code is invalid for the role; otherwise, when the body bytes (after the
8-byte header, excluding the final 2 terminator bytes) are valid UTF-8, it
returns the frame with that body — and it panics when they are not. The result
never depends on the content of the 2 terminator bytes. -/
theorem from_bytes_case_analysis (b : List Nat) (role : CodecType) :
    (¬(10 ≤ b.length ∧ b.length ≤ 4096) →
      Packet.from_bytes b role = .err .InvalidLength) ∧
    (10 ≤ b.length → b.length ≤ 4096 →
      (PacketType.from_i32 (getI32le (b.drop 4)) role = none →
        Packet.from_bytes b role = .err .UndefinedType) ∧
      (∀ t, PacketType.from_i32 (getI32le (b.drop 4)) role = some t →
        (utf8Valid ((b.drop 8).take (b.length - 10)) = true →
          Packet.from_bytes b role =
            .ok ⟨t, getI32le b, (b.drop 8).take (b.length - 10)⟩) ∧
        (utf8Valid ((b.drop 8).take (b.length - 10)) = false →
          Packet.from_bytes b role = .panic))) ∧
    (∀ c t u : List Nat, t.length = 2 → u.length = 2 →
      Packet.from_bytes (c ++ t) role = Packet.from_bytes (c ++ u) role) := by
  refine ⟨?_, ?_, ?_⟩
  · intro h
    unfold Packet.from_bytes
    rw [if_pos h]
  · intro h1 h2
    have hsub : b.length - 8 - 2 = b.length - 10 := by omega
    constructor
    · intro hty
      unfold Packet.from_bytes
      rw [if_neg (by omega)]
      rw [hty]
    · intro t hty
      constructor
      · intro hv
        unfold Packet.from_bytes
        rw [if_neg (by omega), hty]
        simp only [hsub, hv, if_pos]
      · intro hv
        unfold Packet.from_bytes
        rw [if_neg (by omega), hty]
        simp only [hsub, hv]
        simp
  · intro c t u ht hu
    by_cases hc : 8 ≤ c.length
    · have hgd : ∀ (v : List Nat) (i : Nat), i < 4 → (c ++ v).getD i 0 = c.getD i 0 := by
        intro v i hi
        rw [List.getD_append]
        omega
      have hg1 : getI32le (c ++ t) = getI32le (c ++ u) := by
        simp only [getI32le, hgd t 0 (by omega), hgd t 1 (by omega), hgd t 2 (by omega),
          hgd t 3 (by omega), hgd u 0 (by omega), hgd u 1 (by omega), hgd u 2 (by omega),
          hgd u 3 (by omega)]
      have hdrop : ∀ v : List Nat, v.length = 2 → (c ++ v).drop 4 = c.drop 4 ++ v := by
        intro v _
        rw [List.drop_append_of_le_length (by omega)]
      have hg2 : getI32le ((c ++ t).drop 4) = getI32le ((c ++ u).drop 4) := by
        rw [hdrop t ht, hdrop u hu]
        have hgd4 : ∀ (v : List Nat) (i : Nat), i < 4 →
            (c.drop 4 ++ v).getD i 0 = (c.drop 4).getD i 0 := by
          intro v i hi
          rw [List.getD_append]
          simp only [List.length_drop]
          omega
        simp only [getI32le, hgd4 t 0 (by omega), hgd4 t 1 (by omega), hgd4 t 2 (by omega),
          hgd4 t 3 (by omega), hgd4 u 0 (by omega), hgd4 u 1 (by omega), hgd4 u 2 (by omega),
          hgd4 u 3 (by omega)]
      have hbody : ∀ v : List Nat, v.length = 2 →
          ((c ++ v).drop 8).take (c.length + 2 - 8 - 2) = c.drop 8 := by
        intro v hv
        rw [List.drop_append_of_le_length (by omega)]
        have h1 : c.length + 2 - 8 - 2 = (c.drop 8).length := by
          simp only [List.length_drop]
          omega
        rw [h1, List.take_left]
      unfold Packet.from_bytes
      simp only [List.length_append, ht, hu, hg1, hg2, hbody t ht, hbody u hu]
    · unfold Packet.from_bytes
      rw [if_pos (by simp [ht]; omega), if_pos (by simp [hu]; omega)]

/-- Witness for C8 (amended): the case analysis applied to a concrete 12-byte
`ResponseValue` payload with the ASCII body "hi". -/
theorem from_bytes_case_analysis_witness :
    Packet.from_bytes [7, 0, 0, 0, 0, 0, 0, 0, 104, 105, 0, 0] .Client =
      .ok ⟨.ResponseValue, 7,
        (([7, 0, 0, 0, 0, 0, 0, 0, 104, 105, 0, 0] : List Nat).drop 8).take 2⟩ :=
  (((from_bytes_case_analysis [7, 0, 0, 0, 0, 0, 0, 0, 104, 105, 0, 0] .Client).2.1
    (by decide) (by decide)).2 .ResponseValue (by decide)).1 (by decide)

/-! ## The incremental decoder of src/packet.rs (`PacketCodec`)

`BytesMut` buffers are modelled as `List Nat`; a decode call takes the codec
and the current buffer and returns the result, the updated codec and the
updated buffer. `BytesMut::split_to(n)` panics when `n` exceeds the buffer
length; that panic is modelled by the `panic` result. -/

/-- `DecodeState` from src/packet.rs. -/
inductive DecodeState where
  | Head
  | Data (n : Nat)
  | Ignore (n : Nat)
deriving DecidableEq, Repr

/-- `PacketCodec` from src/packet.rs. -/
structure PacketCodec where
  state : DecodeState
  ctype : CodecType
  max_length : Nat
deriving DecidableEq, Repr

/-- `PacketCodec::new` from src/packet.rs. -/
def PacketCodec.new (codec_type : CodecType) (max_length : Nat) : PacketCodec :=
  ⟨.Head, codec_type, max_length⟩

/-- `PacketCodec::new_client` from src/packet.rs. -/
def PacketCodec.new_client : PacketCodec := PacketCodec.new .Client 4096

/-- `PacketCodec::new_server` from src/packet.rs. -/
def PacketCodec.new_server : PacketCodec := PacketCodec.new .Server 4096

/-- Result of one `Decoder::decode` call: `ok none` (need more data),
`ok (some p)` (a frame emitted), a `PacketError`, or a panic. -/
inductive DecodeResult where
  | ok (p : Option Packet)
  | err (e : PacketError)
  | panic
deriving DecidableEq, Repr

/-- The tail of `PacketCodec::decode` after the `match` on the state produced
`packet_len`: `src.split_to(packet_len)` (panics when fewer than `packet_len`
bytes are buffered) followed by `Packet::from_bytes`. The state is left
unchanged, exactly as in the source. -/
def decodeTail (c : PacketCodec) (packet_len : Nat) (src : List Nat) :
    DecodeResult × PacketCodec × List Nat :=
  if src.length < packet_len then (.panic, c, src)
  else
    match Packet.from_bytes (src.take packet_len) c.ctype with
    | .ok p => (.ok (some p), c, src.drop packet_len)
    | .err e => (.err e, c, src.drop packet_len)
    | .panic => (.panic, c, src.drop packet_len)

/-- `<PacketCodec as Decoder>::decode` from src/packet.rs, transcribed
branch by branch (including the comparisons against `src.len()` exactly as
they appear in the source). -/
def PacketCodec.decode (c : PacketCodec) (src : List Nat) :
    DecodeResult × PacketCodec × List Nat :=
  if src.isEmpty then (.ok none, c, src)
  else
    match c.state with
    | .Head =>
      if src.length ≤ 4 then (.ok none, c, src)
      else
        let packet_len := asUsize (getI32le src)
        let src1 := src.drop 4
        if src1.length > c.max_length then
          if src1.length ≥ packet_len then
            (.ok none, c, src1.drop packet_len)
          else
            (.ok none, { c with state := .Ignore src1.length }, [])
        else if src1.length < packet_len then
          (.ok none, { c with state := .Data packet_len }, src1)
        else decodeTail c packet_len src1
    | .Data packet_len =>
      if packet_len < src.length then (.ok none, c, src)
      else decodeTail c packet_len src
    | .Ignore remaining =>
      if src.length ≥ remaining then
        (.ok none, { c with state := .Head }, src.drop remaining)
      else
        (.ok none, { c with state := .Ignore (remaining - src.length) }, [])

/-- Feed a byte string to the codec one byte at a time, calling `decode` after
each byte arrives, collecting the results; stops at the first panic. -/
def feedOneByOne (c : PacketCodec) (buf : List Nat) : List Nat → List DecodeResult
  | [] => []
  | b :: rest =>
    match c.decode (buf ++ [b]) with
    | (.panic, _, _) => [.panic]
    | (r, c1, buf1) => r :: feedOneByOne c1 buf1 rest

/-- C2 (code bug): feeding the 14 encoded bytes of an empty `Auth` frame
(declared length 10) to the decoder one byte at a time does not buffer until
the body has arrived — after the length prefix is consumed the codec is in
`Data 10`, and the very next call, with only 2 of the 10 payload bytes
buffered, falls through to `split_to(10)` and panics; and conversely, from
state `Data 10` with 12 bytes buffered (more than the declared 10) the decoder
returns `ok none` and leaves state and buffer untouched, never emitting the
frame. The comparison `packet_len < src.len()` in the `Data` arm is reversed
relative to the spec's awaiting-body contract. -/
theorem decode_awaiting_body_is_reversed :
    feedOneByOne PacketCodec.new_server [] [10, 0, 0, 0, 10, 0, 0, 0, 3, 0, 0, 0, 0, 0] =
      [.ok none, .ok none, .ok none, .ok none, .ok none, .panic] ∧
    PacketCodec.decode ⟨.Data 10, .Server, 4096⟩ [10, 0, 0, 0, 3, 0, 0, 0, 0, 0, 99, 99] =
      (.ok none, ⟨.Data 10, .Server, 4096⟩, [10, 0, 0, 0, 3, 0, 0, 0, 0, 0, 99, 99]) := by
  constructor <;> rfl

/-- C3 (code bug): the oversized-frame branch tests the buffered length
(`src.len()`) instead of the declared length. A frame declaring length 5000
(above the 4096 maximum) with only 8 payload bytes buffered is not discarded:
the codec enters `Data 5000` and waits for the hostile frame's body. And when
the branch does fire (on a codec configured with maximum 16: 100 declared, 20
buffered), the codec records `Ignore 20` — the number of bytes it just
discarded — instead of the 80 bytes that remain to be skipped. -/
theorem decode_oversized_checks_wrong_length :
    PacketCodec.decode (PacketCodec.new .Server 4096)
        ([136, 19, 0, 0] ++ [1, 2, 3, 4, 5, 6, 7, 8]) =
      (.ok none, ⟨.Data 5000, .Server, 4096⟩, [1, 2, 3, 4, 5, 6, 7, 8]) ∧
    PacketCodec.decode (PacketCodec.new .Server 16)
        ([100, 0, 0, 0] ++ List.replicate 20 7) =
      (.ok none, ⟨.Ignore 20, .Server, 16⟩, []) := by
  constructor <;> rfl

/-! ## The codec defined locally in src/server.rs

src/server.rs defines its own `PacketCodec` (shadowing the glob import of
`packet::PacketCodec`), and `ServerSession::from_tcp_stream` builds its framed
reader and writer from it. Its decode arm calls `Packet::from_bytes(data,
false)` — `false` where a `CodecType` is expected, which does not type-check
as written in the source — so the role passed to `from_bytes` is modelled as
an explicit parameter of `decode`. -/

namespace server

/-- `DecodeState` from src/server.rs. -/
inductive DecodeState where
  | Head
  | Data (n : Nat)
deriving DecidableEq, Repr

/-- `PacketCodec` from src/server.rs (the one `ServerSession` actually uses). -/
structure PacketCodec where
  state : DecodeState
deriving DecidableEq, Repr

/-- `<PacketCodec as Decoder>::decode` from src/server.rs. `split_to(len)` on
a buffer shorter than `len` panics; the `else` branch and the `Data` arm are
the source's `panic!("too lazy to impliment multi packet processing")`; a
`from_bytes` failure panics through `.expect`. -/
def PacketCodec.decode (ctype : CodecType) (c : PacketCodec) (src : List Nat) :
    DecodeResult × PacketCodec × List Nat :=
  match c.state with
  | .Head =>
    if src.length ≤ 4 then (.ok none, c, src)
    else
      let len := asUsize (getI32le src)
      let src1 := src.drop 4
      if src1.length ≤ len then
        if src1.length < len then (.panic, c, src1)
        else
          match Packet.from_bytes (src1.take len) ctype with
          | .ok p => (.ok (some p), c, src1.drop len)
          | _ => (.panic, c, src1.drop len)
      else (.panic, c, src1)
  | .Data _ => (.panic, c, src)

end server

/-- `Packet::from_bytes` only succeeds on payloads of length 10 to 4096. -/
theorem from_bytes_ok_length {b : List Nat} {ct : CodecType} {p : Packet}
    (h : Packet.from_bytes b ct = .ok p) : 10 ≤ b.length ∧ b.length ≤ 4096 := by
  by_contra hc
  unfold Packet.from_bytes at h
  rw [if_pos hc] at h
  cases h

/-- C9 counterexample: the codec the `ServerSession` uses is not behaviorally
equal to the `PacketCodec` of src/packet.rs. On a buffer holding the length
prefix (declaring 10) and only 2 payload bytes, the packet.rs codec emits
nothing and waits in `Data 10`, while the server.rs codec panics in
`split_to(10)`. -/
theorem server_codec_panics_on_partial_frame :
    server.PacketCodec.decode .Server ⟨.Head⟩ [10, 0, 0, 0, 1, 0] =
      (.panic, ⟨.Head⟩, [1, 0]) ∧
    PacketCodec.decode ⟨.Head, .Server, 4096⟩ [10, 0, 0, 0, 1, 0] =
      (.ok none, ⟨.Data 10, .Server, 4096⟩, [1, 0]) := by
  constructor <;> rfl

/-- C9 (amended): the two codecs agree only on decode calls whose buffer holds
exactly one complete, well-formed frame — a declared length equal to the bytes
following the prefix, decoding successfully. There both emit that frame,
finish in `Head` with an empty buffer. -/
theorem server_codec_agreement_on_exact_frames (buf : List Nat) (ct : CodecType)
    (p : Packet)
    (h4 : 4 < buf.length)
    (hlen : asUsize (getI32le buf) = buf.length - 4)
    (hok : Packet.from_bytes (buf.drop 4) ct = .ok p) :
    server.PacketCodec.decode ct ⟨.Head⟩ buf = (.ok (some p), ⟨.Head⟩, []) ∧
    PacketCodec.decode ⟨.Head, ct, 4096⟩ buf = (.ok (some p), ⟨.Head, ct, 4096⟩, []) := by
  have hlen1 : (buf.drop 4).length = buf.length - 4 := by simp
  have hbounds := from_bytes_ok_length hok
  have htake : (buf.drop 4).take (buf.length - 4) = buf.drop 4 := by
    rw [← hlen1, List.take_length]
  have hdrop : (buf.drop 4).drop (buf.length - 4) = [] := by
    rw [← hlen1, List.drop_length]
  constructor
  · unfold server.PacketCodec.decode
    simp only [hlen]
    rw [if_neg (by omega)]
    rw [if_pos (by omega), if_neg (by omega)]
    rw [htake, hok, hdrop]
  · have hne : ¬ buf.isEmpty = true := by
      simp only [List.isEmpty_iff]
      intro h
      subst h
      simp at h4
    unfold PacketCodec.decode
    rw [if_neg hne]
    simp only [hlen]
    rw [if_neg (by omega)]
    rw [if_neg (by omega), if_neg (by omega)]
    unfold decodeTail
    rw [if_neg (by omega)]
    rw [htake, hok, hdrop]

/-- Witness for C9 (amended): the agreement evaluated on the 14 encoded bytes
of an empty `Auth` frame. -/
theorem server_codec_agreement_on_exact_frames_witness :
    server.PacketCodec.decode .Server ⟨.Head⟩ [10, 0, 0, 0, 10, 0, 0, 0, 3, 0, 0, 0, 0, 0] =
      (.ok (some ⟨.Auth, 10, []⟩), ⟨.Head⟩, []) ∧
    PacketCodec.decode ⟨.Head, .Server, 4096⟩ [10, 0, 0, 0, 10, 0, 0, 0, 3, 0, 0, 0, 0, 0] =
      (.ok (some ⟨.Auth, 10, []⟩), ⟨.Head, .Server, 4096⟩, []) :=
  server_codec_agreement_on_exact_frames
    [10, 0, 0, 0, 10, 0, 0, 0, 3, 0, 0, 0, 0, 0] .Server ⟨.Auth, 10, []⟩
    (by decide) (by decide) (by decide)

/-! ## The `ServerSession` state machine of src/server.rs

One iteration of the `loop` in `ServerSession::start` is modelled as a pure
step function. The external handler (`RconImpl`) is a pair of functions; a
`process` result of `none` models the handler returning `Err(..)`, on which
the source's `r.unwrap()` panics. The step records which handler capabilities
were invoked and which packets were sent. -/

/-- The handler capability (`RconImpl` from src/server.rs): `authenticate`
takes the frame body (the password) and the frame id; `process` takes the
frame body (the command). -/
structure RconImpl where
  authenticate : List Nat → Int → Bool
  process : List Nat → Option (List Nat)

/-- A handler invocation performed during one loop iteration. -/
inductive HandlerCall where
  | authenticate (password : List Nat) (pid : Int)
  | process (cmd : List Nat)
deriving DecidableEq, Repr

/-- How one iteration of the `ServerSession::start` loop ends: continue
looping, return `Ok(())` (stream ended), or panic (`r.unwrap()` on a handler
error). -/
inductive StepOutcome where
  | next
  | ended
  | panicked
deriving DecidableEq, Repr

/-- Observable effect of one iteration of `ServerSession::start`. -/
structure StepResult where
  authenticated : Bool
  sent : List Packet
  calls : List HandlerCall
  outcome : StepOutcome
deriving DecidableEq, Repr

/-- One iteration of the `loop` in `ServerSession::start` (src/server.rs),
given the current `authenticated` flag and the value read from the framed
reader. The two unguarded arms of the source `match` (`ExecCommand` without
authentication, and any other packet) only log and continue, as does the
`Some(Err(e))` arm. -/
def ServerSession.start_step (h : RconImpl) (authenticated : Bool)
    (m : Option (Except PacketError Packet)) : StepResult :=
  match m with
  | some (.ok s) =>
    if s.ptype = .ExecCommand ∧ authenticated then
      match h.process s.body with
      | some r => ⟨authenticated, [⟨.ResponseValue, s.id, r⟩], [.process s.body], .next⟩
      | none => ⟨authenticated, [], [.process s.body], .panicked⟩
    else if s.ptype = .Auth ∧ ¬authenticated then
      if h.authenticate s.body s.id then
        ⟨true, [⟨.ResponseValue, s.id, []⟩], [.authenticate s.body s.id], .next⟩
      else
        ⟨authenticated, [⟨.ResponseValue, -1, []⟩], [.authenticate s.body s.id], .next⟩
    else ⟨authenticated, [], [], .next⟩
  | some (.error _) => ⟨authenticated, [], [], .next⟩
  | none => ⟨authenticated, [], [], .ended⟩

/-- C5: one step of the `ServerSession` main loop: `ExecCommand` while
authenticated invokes the handler's `process` on the body and sends a
`ResponseValue` with the same id and the returned text; `Auth` while
unauthenticated invokes `authenticate` — on success the session becomes
authenticated and replies with a `ResponseValue` of the same id and empty
body, on failure it stays unauthenticated and replies with id `-1` and empty
body; `ExecCommand` while unauthenticated is dropped with no response and the
session continues. -/
theorem session_step_spec (h : RconImpl) (s : Packet) (auth : Bool) :
    (∀ r, s.ptype = .ExecCommand → auth = true → h.process s.body = some r →
      ServerSession.start_step h auth (some (.ok s)) =
        ⟨true, [⟨.ResponseValue, s.id, r⟩], [.process s.body], .next⟩) ∧
    (s.ptype = .Auth → auth = false →
      ServerSession.start_step h auth (some (.ok s)) =
        if h.authenticate s.body s.id then
          ⟨true, [⟨.ResponseValue, s.id, []⟩], [.authenticate s.body s.id], .next⟩
        else ⟨false, [⟨.ResponseValue, -1, []⟩], [.authenticate s.body s.id], .next⟩) ∧
    (s.ptype = .ExecCommand → auth = false →
      ServerSession.start_step h auth (some (.ok s)) = ⟨false, [], [], .next⟩) := by
  refine ⟨?_, ?_, ?_⟩
  · intro r h1 h2 h3
    subst h2
    simp [ServerSession.start_step, h1, h3]
  · intro h1 h2
    subst h2
    simp [ServerSession.start_step, h1]
  · intro h1 h2
    subst h2
    simp [ServerSession.start_step, h1]

/-- A concrete handler that accepts every password and echoes commands. -/
def echoHandler : RconImpl := ⟨fun _ _ => true, fun b => some b⟩

/-- Witness for C5: the `ExecCommand`-while-authenticated case evaluated with
the echo handler. -/
theorem session_step_spec_witness :
    ServerSession.start_step echoHandler true (some (.ok ⟨.ExecCommand, 5, [97]⟩)) =
      ⟨true, [⟨.ResponseValue, 5, [97]⟩], [.process [97]], .next⟩ :=
  (session_step_spec echoHandler ⟨.ExecCommand, 5, [97]⟩ true).1 [97] rfl rfl rfl

/-- C10: an `Auth` frame arriving while the session is already authenticated
falls through to the catch-all arm: the handler is not invoked, nothing is
sent, the flag stays `true` and the loop continues. -/
theorem session_step_ignores_auth_when_authenticated (h : RconImpl) (s : Packet)
    (hty : s.ptype = .Auth) :
    ServerSession.start_step h true (some (.ok s)) = ⟨true, [], [], .next⟩ := by
  simp [ServerSession.start_step, hty]

/-- Witness for C10: evaluated with the echo handler on a concrete `Auth`
frame. -/
theorem session_step_ignores_auth_when_authenticated_witness :
    ServerSession.start_step echoHandler true (some (.ok ⟨.Auth, 3, [98]⟩)) =
      ⟨true, [], [], .next⟩ :=
  session_step_ignores_auth_when_authenticated echoHandler ⟨.Auth, 3, [98]⟩ rfl

/-! ## The client of src/client.rs -/

/-- The `std::io::ErrorKind` values src/client.rs constructs errors with (the
message strings are not modelled). -/
inductive IoErrorKind where
  | Other
  | ConnectionAborted
  | NotFound
  | NotConnected
deriving DecidableEq, Repr

namespace client

/-- `Error` from src/client.rs. -/
inductive Error where
  | Io (kind : IoErrorKind)
  | PacketError
  | InvalidResponse
deriving DecidableEq, Repr

end client

/-- The bounded read loop of `Connection::login` (src/client.rs): `for _ in
0..2 { match stream.next().await { .. } }` followed by
`Err(Error::InvalidResponse)`. `events` lists the successive results of
`stream.next()` (`none` = end of stream; an exhausted event list is treated
as end of stream). Returns the `Result` and the final `authenticated` flag,
which `login` resets to `false` on entry. -/
def login_loop (aid : Int) :
    Nat → List (Option (Except PacketError Packet)) → Except client.Error Unit × Bool
  | 0, _ => (.error .InvalidResponse, false)
  | _ + 1, [] => (.error (.Io .ConnectionAborted), false)
  | fuel + 1, e :: rest =>
    match e with
    | some (.ok p) =>
      if p.ptype = .AuthResponse then
        if p.id = aid then (.ok (), true)
        else (.error (.Io .Other), false)
      else login_loop aid fuel rest
    | some (.error _) => login_loop aid fuel rest
    | none => (.error (.Io .ConnectionAborted), false)

/-- `Connection::login` from src/client.rs, given the correlation id `aid` it
generated for the `Auth` frame and the stream read results. The
`Error::Io(Other)` case carries the source's "Incorrect password" message. -/
def Connection.login (aid : Int) (events : List (Option (Except PacketError Packet))) :
    Except client.Error Unit × Bool :=
  login_loop aid 2 events

/-- C6: once `login` receives a decoded `AuthResponse` frame, a response id
equal to the sent id `aid` makes `login` succeed with `authenticated = true`;
a differing id makes it return the wrong-password error (`Io(Other,
"Incorrect password")`) with `authenticated` left `false` (the stream is not
dropped anywhere in `login`). -/
theorem login_id_check (aid : Int) (p : Packet)
    (rest : List (Option (Except PacketError Packet)))
    (hty : p.ptype = .AuthResponse) :
    (p.id = aid → Connection.login aid (some (.ok p) :: rest) = (.ok (), true)) ∧
    (p.id ≠ aid →
      Connection.login aid (some (.ok p) :: rest) = (.error (.Io .Other), false)) := by
  constructor
  · intro hid
    simp [Connection.login, login_loop, hty, hid]
  · intro hid
    simp [Connection.login, login_loop, hty, hid]

/-- Witness for C6: both branches evaluated on concrete `AuthResponse`
frames. -/
theorem login_id_check_witness :
    Connection.login 1 [some (.ok ⟨.AuthResponse, 1, []⟩)] = (.ok (), true) ∧
    Connection.login 1 [some (.ok ⟨.AuthResponse, 2, []⟩)] =
      (.error (.Io .Other), false) :=
  ⟨(login_id_check 1 ⟨.AuthResponse, 1, []⟩ [] rfl).1 rfl,
   (login_id_check 1 ⟨.AuthResponse, 2, []⟩ [] rfl).2 (by decide)⟩

/-- The retry loop of `Connection::connect` (src/client.rs): `for retries in
1..max_retries+1`. Each entry of `outcomes` tells whether that call of
`TcpStream::connect` succeeds. Returns the list of sleep durations performed
(in milliseconds, `u64` arithmetic) and `none` on `Ok(())`, or
`some NotFound` for the source's `Err(io::Error::new(ErrorKind::NotFound,
"unable to resolve host"))` after the loop. A failed attempt hits `continue`
— no sleep; a successful attempt sleeps `retry_delay.pow(retries)` (if
`exponential_backoff`) or `retry_delay` before returning `Ok`. -/
def connect_loop (exponential_backoff : Bool) (retry_delay : Nat) :
    List Bool → Nat → List Nat × Option IoErrorKind
  | [], _ => ([], some .NotFound)
  | o :: rest, retries =>
    if o then
      ([if exponential_backoff then (retry_delay ^ retries) % 18446744073709551616
        else retry_delay], none)
    else connect_loop exponential_backoff retry_delay rest (retries + 1)

/-- `Connection::connect` from src/client.rs. -/
def Connection.connect (outcomes : List Bool) (max_retries : Nat)
    (exponential_backoff : Bool) (retry_delay : Nat) : List Nat × Option IoErrorKind :=
  connect_loop exponential_backoff retry_delay (outcomes.take max_retries) 1

/-- C7 (code bug): with `max_retries = 3`, `exponential_backoff = true`,
`retry_delay = 100` against a closed port (all three attempts fail),
`connect` performs no delay at all between attempts — failed attempts hit
`continue` immediately — and returns the `NotFound` "unable to resolve host"
error, not delays of 100^1, 100^2, 100^3 ms followed by a retries-exhausted
error. The delay is instead performed after a successful attempt: failing
once and then succeeding sleeps 100^2 ms before returning `Ok`. -/
theorem connect_sleeps_after_success_not_between_retries :
    Connection.connect [false, false, false] 3 true 100 = ([], some .NotFound) ∧
    Connection.connect [false, true] 3 true 100 = ([10000], none) := by
  constructor <;> rfl

end Rcon
